import Mathlib

/-!
# PingCheck — shallow embedding and verification

Shallow embedding of the PingCheck EOS-SDK agent (src/legacy/PingCheck.py,
version 1.4.2).  The agent's per-round handler `on_timeout` is modelled as a
pure function over an explicit agent state; the external collaborators read
during a round (option store snapshot, filesystem, socket address parser,
interface/VRF lookup, ICMP probe, eAPI config application) are supplied as
explicit inputs.  Time stamps are rationals.
-/

namespace PingCheck

/-- Health status values published via status_set of the agent manager
(the per-round values; the initial Unknown is set before the first round). -/
inductive Health where
  | GOOD
  | FAIL
  | INACTIVE
  deriving DecidableEq, Repr

/-- The two configuration-change actions: change_config with argument FAIL
or with argument RECOVER. -/
inductive ActionKind where
  | Fail
  | Recover
  deriving DecidableEq, Repr

/-- Outcome of the external run_config_cmds call of the eAPI manager:
it reports success, reports failure, or raises. -/
inductive ApplyOutcome where
  | success
  | failure
  | exception
  deriving DecidableEq, Repr

/-- An action file on disk: the raw lines as returned by Python readlines
(each line keeps its trailing newline, so a real line is never empty). -/
structure ActionFile where
  lines : List String
  deriving DecidableEq, Repr

/-- os.path.getsize of an action file: the byte count of the content, the
sum of the raw line lengths. -/
def ActionFile.getsize (f : ActionFile) : Nat :=
  (f.lines.map String.length).sum

/-- The whitespace set of Python str.strip. -/
def isPySpace (c : Char) : Bool :=
  c = ' ' || c = '\t' || c = '\n' || c = '\r' || c = Char.ofNat 11 || c = Char.ofNat 12

/-- Python str.strip: drop leading and trailing whitespace. -/
def pyStrip (s : String) : String :=
  ⟨((s.data.dropWhile isPySpace).reverse.dropWhile isPySpace).reverse⟩

/-- Helper for splitComma: accumulate the current piece (reversed). -/
def splitCommaAux : List Char → List Char → List String
  | [], acc => [⟨acc.reverse⟩]
  | c :: cs, acc =>
      if c = ',' then ⟨acc.reverse⟩ :: splitCommaAux cs []
      else splitCommaAux cs (c :: acc)

/-- Python str.split with separator a comma, as used on the IPv4 option. -/
def splitComma (s : String) : List String :=
  splitCommaAux s.data []

/-- One round's values of the daemon options, as read from the agent manager
(agent_option).  Numeric fields carry the value of Python int applied to the
option string.  none models an unset or empty — falsy — option. -/
structure Snapshot where
  ipv4 : Option String
  confFail : Option String
  confRecover : Option String
  pingTimeout : Option Int
  holdup : Option Int
  holddown : Option Int
  checkInterval : Option Int
  source : Option String
  vrf : Option String

/-- The external collaborators consulted during one round: the filesystem
(action files by path; none when os.path.isfile is false), the address
parser socket.inet_aton, the source-interface lookup check_interface
(truthiness of its result), and VrfMgr.exists. -/
structure Env where
  files : String → Option ActionFile
  validIPv4 : String → Bool
  checkInterface : String → Bool
  vrfExists : String → Bool

/-- The PINGTIMEOUT guard of check_vars: the option is set and its int
value exceeds 3600. -/
def badTimeout (s : Snapshot) : Bool :=
  match s.pingTimeout with
  | some t => decide (3600 < t)
  | none => false

/-- The SOURCE guard of check_vars: the option is set and check_interface
returned False for it. -/
def badSource (env : Env) (s : Snapshot) : Bool :=
  match s.source with
  | some src => !env.checkInterface src
  | none => false

/-- The VRF guard of check_vars: the option is set and VrfMgr.exists
returned False for it. -/
def badVrf (env : Env) (s : Snapshot) : Bool :=
  match s.vrf with
  | some v => !env.vrfExists v
  | none => false

/-- PingCheckAgent.check_vars: per-round configuration validation, true when
the round may proceed.  Follows the source's check order: IPv4 present and
each comma-separated address accepted by inet_aton; CONF_FAIL and
CONF_RECOVER present, existing and of nonzero size; PINGTIMEOUT, when set,
at most 3600; SOURCE, when set, resolvable; VRF, when set, existing. -/
def checkVars (env : Env) (s : Snapshot) : Bool :=
  match s.ipv4 with
  | none => false
  | some ips =>
    if ¬ ((splitComma ips).all env.validIPv4) then false
    else
      match s.confFail, s.confRecover with
      | some pf, some pr =>
        (match env.files pf with
         | none => false
         | some ff =>
           if ff.getsize = 0 then false
           else
             match env.files pr with
             | none => false
             | some fr =>
               if fr.getsize = 0 then false
               else if badTimeout s then false
               else if badSource env s then false
               else if badVrf env s then false
               else true)
      | _, _ => false

/-- The long-lived instance state read and written by on_timeout:
CURRENTSTATUS (true models 1, good; false models 0, failed), the ITERATION
counter, and the persistent DEADIPV4 and GOODIPV4 lists. -/
structure AgentState where
  currentStatus : Bool
  iteration : Nat
  deadIPv4 : List String
  goodIPv4 : List String
  deriving DecidableEq, Repr

/-- One endpoint's handling inside the probe loop of on_timeout: on a
successful ping the host is removed from DEADIPV4 (when present) and
appended to GOODIPV4 (when absent); on a failed ping the host is appended
to DEADIPV4 (when absent) and removed from GOODIPV4 (when present). -/
def processHost (probe : String → Bool) (st : AgentState) (host : String) : AgentState :=
  if probe host then
    { st with
      deadIPv4 := if host ∈ st.deadIPv4 then st.deadIPv4.erase host else st.deadIPv4
      goodIPv4 := if host ∈ st.goodIPv4 then st.goodIPv4 else st.goodIPv4 ++ [host] }
  else
    { st with
      deadIPv4 := if host ∈ st.deadIPv4 then st.deadIPv4 else st.deadIPv4 ++ [host]
      goodIPv4 := if host ∈ st.goodIPv4 then st.goodIPv4.erase host else st.goodIPv4 }

/-- The probe loop of on_timeout over the comma-split IPv4 list. -/
def aggregate (probe : String → Bool) (st : AgentState) (hosts : List String) : AgentState :=
  hosts.foldl (processHost probe) st

/-- HOLDDOWNLOCAL: the HOLDDOWN option when set, else the instance default
self.HOLDDOWN, which stays at its constructor value 0. -/
def holddownLocal (s : Snapshot) : Int := s.holddown.getD 0

/-- HOLDUPLOCAL: the HOLDUP option when set, else the instance default
self.HOLDUP, which stays at its constructor value 0. -/
def holdupLocal (s : Snapshot) : Int := s.holdup.getD 0

/-- The check interval used by the scheduler tail of on_timeout:
the CHECKINTERVAL option when set, else the default self.CHECKINTERVAL = 5. -/
def checkIntervalLocal (s : Snapshot) : Int := s.checkInterval.getD 5

/-- The hysteresis block of on_timeout, after the probe loop: at least one
good host means recovery handling (when currently failed, compare ITERATION
with HOLDDOWN before incrementing); no good host means failure handling
(when currently good, compare ITERATION with HOLDUP before incrementing).
Returns the updated state and the change_config action invoked this round. -/
def smStep (holddown holdup : Int) (st : AgentState) : AgentState × Option ActionKind :=
  if 0 < st.goodIPv4.length then
    if st.currentStatus = false then
      if holddown ≤ (st.iteration : Int) then
        ({ st with currentStatus := true, iteration := 0 }, some ActionKind.Recover)
      else
        ({ st with iteration := st.iteration + 1 }, none)
    else (st, none)
  else
    if st.currentStatus = true then
      if holdup ≤ (st.iteration : Int) then
        ({ st with currentStatus := false, iteration := 0 }, some ActionKind.Fail)
      else
        ({ st with iteration := st.iteration + 1 }, none)
    else (st, none)

/-- The command list change_config submits: readlines, strip each line,
delete a leading line equal to the word enable. -/
def prepareCommands (f : ActionFile) : List String :=
  match f.lines.map pyStrip with
  | c :: rest => if c = "enable" then rest else c :: rest
  | [] => []

/-- The observable result of one change_config invocation. -/
structure DispatchResult where
  submitted : List String
  applyCalls : Nat
  retval : Nat
  deriving DecidableEq, Repr

/-- PingCheckAgent.change_config on the given action file, with the outcome
of the external eAPI call supplied by the environment.  run_config_cmds is
invoked exactly once; a reported failure is logged and still returns 1,
an exception is caught and returns 0; nothing is retried. -/
def changeConfig (outcome : ApplyOutcome) (f : ActionFile) : DispatchResult :=
  { submitted := prepareCommands f
    applyCalls := 1
    retval :=
      match outcome with
      | ApplyOutcome.exception => 0
      | _ => 1 }

/-- The scheduler tail of on_timeout: runTime is the current time minus the
round's start time; when it exceeds the check interval the next wake time is
now, otherwise now plus the remaining part of the interval. -/
def nextWake (interval : Int) (startTime now : ℚ) : ℚ :=
  if (interval : ℚ) < now - startTime then now
  else now + ((interval : ℚ) - (now - startTime))

/-- Everything observable from one on_timeout invocation: the updated
instance state, the published Health Status value, the change_config action
of the round with its dispatch result, and the scheduled wake time. -/
structure RoundOutput where
  state : AgentState
  status : Health
  action : Option ActionKind
  dispatch : Option DispatchResult
  wake : ℚ

/-- The comma-split endpoint list of a snapshot. -/
def hostsOf (s : Snapshot) : List String :=
  splitComma (s.ipv4.getD "")

/-- The file change_config opens for the given action under a snapshot. -/
def actionFileFor (env : Env) (s : Snapshot) (a : ActionKind) : ActionFile :=
  match a with
  | ActionKind.Fail => (env.files (s.confFail.getD "")).getD ⟨[]⟩
  | ActionKind.Recover => (env.files (s.confRecover.getD "")).getD ⟨[]⟩

/-- PingCheckAgent.on_timeout, one round: when check_vars passes, run the
probe loop, the hysteresis block and the resulting change_config call, and
publish GOOD or FAIL from the new state; otherwise leave the state alone and
publish INACTIVE.  Either way compute the next wake time. -/
def onTimeout (env : Env) (s : Snapshot) (probe : String → Bool)
    (outcome : ApplyOutcome) (st : AgentState) (startTime now : ℚ) : RoundOutput :=
  if checkVars env s then
    let st1 := aggregate probe st (hostsOf s)
    let step := smStep (holddownLocal s) (holdupLocal s) st1
    { state := step.1
      status := if step.1.currentStatus then Health.GOOD else Health.FAIL
      action := step.2
      dispatch := step.2.map (fun a => changeConfig outcome (actionFileFor env s a))
      wake := nextWake (checkIntervalLocal s) startTime now }
  else
    { state := st
      status := Health.INACTIVE
      action := none
      dispatch := none
      wake := nextWake (checkIntervalLocal s) startTime now }

/-- The instance state after n rounds under a constant environment, snapshot
and probe outcome (time stamps irrelevant to the state). -/
def stateAfter (env : Env) (s : Snapshot) (probe : String → Bool)
    (st : AgentState) : Nat → AgentState
  | 0 => st
  | n + 1 =>
      (onTimeout env s probe ApplyOutcome.success
        (stateAfter env s probe st n) 0 0).state

/-! ## Basic unfolding lemmas -/

theorem aggregate_nil (probe : String → Bool) (st : AgentState) :
    aggregate probe st [] = st := rfl

theorem aggregate_cons (probe : String → Bool) (st : AgentState) (h : String)
    (t : List String) :
    aggregate probe st (h :: t) = aggregate probe (processHost probe st h) t := rfl

theorem processHost_currentStatus (probe : String → Bool) (st : AgentState)
    (host : String) :
    (processHost probe st host).currentStatus = st.currentStatus := by
  unfold processHost; split <;> rfl

theorem processHost_iteration (probe : String → Bool) (st : AgentState)
    (host : String) :
    (processHost probe st host).iteration = st.iteration := by
  unfold processHost; split <;> rfl

theorem aggregate_currentStatus (probe : String → Bool) (hosts : List String)
    (st : AgentState) :
    (aggregate probe st hosts).currentStatus = st.currentStatus := by
  induction hosts generalizing st with
  | nil => rfl
  | cons h t ih => rw [aggregate_cons, ih, processHost_currentStatus]

theorem aggregate_iteration (probe : String → Bool) (hosts : List String)
    (st : AgentState) :
    (aggregate probe st hosts).iteration = st.iteration := by
  induction hosts generalizing st with
  | nil => rfl
  | cons h t ih => rw [aggregate_cons, ih, processHost_iteration]

/-! ## Projection equations for processHost -/

theorem processHost_good (probe : String → Bool) (st : AgentState) (host : String) :
    (processHost probe st host).goodIPv4 =
      if probe host then
        (if host ∈ st.goodIPv4 then st.goodIPv4 else st.goodIPv4 ++ [host])
      else
        (if host ∈ st.goodIPv4 then st.goodIPv4.erase host else st.goodIPv4) := by
  unfold processHost; split <;> rfl

theorem processHost_dead (probe : String → Bool) (st : AgentState) (host : String) :
    (processHost probe st host).deadIPv4 =
      if probe host then
        (if host ∈ st.deadIPv4 then st.deadIPv4.erase host else st.deadIPv4)
      else
        (if host ∈ st.deadIPv4 then st.deadIPv4 else st.deadIPv4 ++ [host]) := by
  unfold processHost; split <;> rfl

/-! ## The two shapes of per-host list updates -/

theorem mem_addHost {l : List String} {host a : String} :
    (a ∈ if host ∈ l then l else l ++ [host]) ↔ a ∈ l ∨ a = host := by
  split
  · next hm =>
    constructor
    · exact Or.inl
    · rintro (h | rfl)
      · exact h
      · exact hm
  · simp

theorem nodup_addHost {l : List String} {host : String} (hl : l.Nodup) :
    (if host ∈ l then l else l ++ [host]).Nodup := by
  split
  · exact hl
  · next hm => simp [List.nodup_append, hl, hm]

theorem mem_removeHost {l : List String} {host a : String} (hl : l.Nodup) :
    (a ∈ if host ∈ l then l.erase host else l) ↔ a ∈ l ∧ a ≠ host := by
  split
  · rw [hl.mem_erase_iff]; exact And.comm
  · next hm =>
    constructor
    · intro h
      exact ⟨h, fun he => hm (he ▸ h)⟩
    · exact And.left

theorem nodup_removeHost {l : List String} {host : String} (hl : l.Nodup) :
    (if host ∈ l then l.erase host else l).Nodup := by
  split
  · exact hl.erase host
  · exact hl

/-! ## Membership frame lemmas: hosts not probed this round keep their
list membership -/

theorem processHost_mem_good_of_ne (probe : String → Bool) (st : AgentState)
    {a host : String} (hne : a ≠ host) :
    a ∈ (processHost probe st host).goodIPv4 ↔ a ∈ st.goodIPv4 := by
  rw [processHost_good]
  split
  · rw [mem_addHost]
    simp [hne]
  · split
    · exact List.mem_erase_of_ne hne
    · exact Iff.rfl

theorem processHost_mem_dead_of_ne (probe : String → Bool) (st : AgentState)
    {a host : String} (hne : a ≠ host) :
    a ∈ (processHost probe st host).deadIPv4 ↔ a ∈ st.deadIPv4 := by
  rw [processHost_dead]
  split
  · split
    · exact List.mem_erase_of_ne hne
    · exact Iff.rfl
  · rw [mem_addHost]
    simp [hne]

theorem aggregate_mem_good_of_not_mem (probe : String → Bool)
    {hosts : List String} (st : AgentState) {a : String} (ha : a ∉ hosts) :
    a ∈ (aggregate probe st hosts).goodIPv4 ↔ a ∈ st.goodIPv4 := by
  induction hosts generalizing st with
  | nil => exact Iff.rfl
  | cons h t ih =>
    have hne : a ≠ h := fun he => ha (by rw [he]; exact List.mem_cons_self h t)
    rw [aggregate_cons,
      ih (processHost probe st h) (fun hm => ha (List.mem_cons_of_mem _ hm)),
      processHost_mem_good_of_ne probe st hne]

theorem aggregate_mem_dead_of_not_mem (probe : String → Bool)
    {hosts : List String} (st : AgentState) {a : String} (ha : a ∉ hosts) :
    a ∈ (aggregate probe st hosts).deadIPv4 ↔ a ∈ st.deadIPv4 := by
  induction hosts generalizing st with
  | nil => exact Iff.rfl
  | cons h t ih =>
    have hne : a ≠ h := fun he => ha (by rw [he]; exact List.mem_cons_self h t)
    rw [aggregate_cons,
      ih (processHost probe st h) (fun hm => ha (List.mem_cons_of_mem _ hm)),
      processHost_mem_dead_of_ne probe st hne]

/-! ## Well-formedness: the two lists are duplicate-free and disjoint,
an invariant of every reachable state (they start empty) -/

/-- The lists GOODIPV4 and DEADIPV4 are duplicate-free and disjoint. -/
def SetsWF (st : AgentState) : Prop :=
  st.goodIPv4.Nodup ∧ st.deadIPv4.Nodup ∧ ∀ a ∈ st.goodIPv4, a ∉ st.deadIPv4

theorem processHost_wf (probe : String → Bool) (st : AgentState) (host : String)
    (hwf : SetsWF st) : SetsWF (processHost probe st host) := by
  obtain ⟨hg, hd, hdisj⟩ := hwf
  refine ⟨?_, ?_, ?_⟩
  · rw [processHost_good]
    split
    · exact nodup_addHost hg
    · exact nodup_removeHost hg
  · rw [processHost_dead]
    split
    · exact nodup_removeHost hd
    · exact nodup_addHost hd
  · intro a hag hcon
    rw [processHost_good] at hag
    rw [processHost_dead] at hcon
    by_cases hp : probe host
    · rw [if_pos hp, mem_addHost] at hag
      rw [if_pos hp, mem_removeHost hd] at hcon
      rcases hag with hin | rfl
      · exact hdisj a hin hcon.1
      · exact hcon.2 rfl
    · rw [if_neg hp, mem_removeHost hg] at hag
      rw [if_neg hp, mem_addHost] at hcon
      rcases hcon with hin | rfl
      · exact hdisj a hag.1 hin
      · exact hag.2 rfl

theorem aggregate_wf (probe : String → Bool) (hosts : List String)
    (st : AgentState) (hwf : SetsWF st) : SetsWF (aggregate probe st hosts) := by
  induction hosts generalizing st with
  | nil => exact hwf
  | cons h t ih => exact ih _ (processHost_wf probe st h hwf)

/-! ## After processing, a probed host lies in exactly the list matching
its probe result -/

theorem processHost_self_true (probe : String → Bool) (st : AgentState)
    {host : String} (hp : probe host = true) (hd : st.deadIPv4.Nodup) :
    host ∈ (processHost probe st host).goodIPv4 ∧
      host ∉ (processHost probe st host).deadIPv4 := by
  rw [processHost_good, processHost_dead, if_pos hp, if_pos hp]
  constructor
  · rw [mem_addHost]; exact Or.inr rfl
  · rw [mem_removeHost hd]; exact fun h => h.2 rfl

theorem processHost_self_false (probe : String → Bool) (st : AgentState)
    {host : String} (hp : probe host = false) (hg : st.goodIPv4.Nodup) :
    host ∈ (processHost probe st host).deadIPv4 ∧
      host ∉ (processHost probe st host).goodIPv4 := by
  have hp' : ¬ (probe host = true) := by simp [hp]
  rw [processHost_good, processHost_dead, if_neg hp', if_neg hp']
  constructor
  · rw [mem_addHost]; exact Or.inr rfl
  · rw [mem_removeHost hg]; exact fun h => h.2 rfl

theorem aggregate_mem_of_mem_hosts (probe : String → Bool) {hosts : List String}
    (st : AgentState) (hwf : SetsWF st) {h : String} (hmem : h ∈ hosts) :
    (probe h = true → h ∈ (aggregate probe st hosts).goodIPv4 ∧
        h ∉ (aggregate probe st hosts).deadIPv4) ∧
    (probe h = false → h ∈ (aggregate probe st hosts).deadIPv4 ∧
        h ∉ (aggregate probe st hosts).goodIPv4) := by
  induction hosts generalizing st with
  | nil => cases hmem
  | cons h0 t ih =>
    rw [aggregate_cons]
    by_cases hmt : h ∈ t
    · exact ih (processHost probe st h0) (processHost_wf probe st h0 hwf) hmt
    · have heq : h = h0 := by
        rcases List.mem_cons.mp hmem with he | ht
        · exact he
        · exact absurd ht hmt
      subst heq
      rw [aggregate_mem_good_of_not_mem probe (processHost probe st h) hmt,
        aggregate_mem_dead_of_not_mem probe (processHost probe st h) hmt]
      constructor
      · intro hp
        exact processHost_self_true probe st hp hwf.2.1
      · intro hp
        exact processHost_self_false probe st hp hwf.1

/-! ## The all-down outcome of a round's probe loop -/

theorem aggregate_goodIPv4_nil (probe : String → Bool) (hosts : List String)
    (st : AgentState) (hg : st.goodIPv4 = [])
    (hp : ∀ h ∈ hosts, probe h = false) :
    (aggregate probe st hosts).goodIPv4 = [] := by
  induction hosts generalizing st with
  | nil => exact hg
  | cons h0 t ih =>
    rw [aggregate_cons]
    refine ih _ ?_ (fun h ht => hp h (List.mem_cons_of_mem _ ht))
    unfold processHost
    rw [if_neg (by simp [hp h0 (List.mem_cons_self h0 t)])]
    simp [hg]

theorem aggregate_goodIPv4_eq_nil (probe : String → Bool) (hosts : List String)
    (st : AgentState) (hwf : SetsWF st)
    (hsub : ∀ a ∈ st.goodIPv4, a ∈ hosts)
    (hp : ∀ h ∈ hosts, probe h = false) :
    (aggregate probe st hosts).goodIPv4 = [] := by
  rw [List.eq_nil_iff_forall_not_mem]
  intro a ha
  by_cases hm : a ∈ hosts
  · exact ((aggregate_mem_of_mem_hosts probe st hwf hm).2 (hp a hm)).2 ha
  · rw [aggregate_mem_good_of_not_mem probe st hm] at ha
    exact hm (hsub a ha)

/-! ## Hysteresis block lemmas -/

theorem smStep_goodIPv4 (hd hu : Int) (st : AgentState) :
    (smStep hd hu st).1.goodIPv4 = st.goodIPv4 := by
  unfold smStep; split_ifs <;> rfl

theorem smStep_deadIPv4 (hd hu : Int) (st : AgentState) :
    (smStep hd hu st).1.deadIPv4 = st.deadIPv4 := by
  unfold smStep; split_ifs <;> rfl

theorem smStep_edge_iff (hd hu : Int) (st : AgentState) :
    ((smStep hd hu st).2 = some ActionKind.Fail ↔
      st.currentStatus = true ∧ (smStep hd hu st).1.currentStatus = false) ∧
    ((smStep hd hu st).2 = some ActionKind.Recover ↔
      st.currentStatus = false ∧ (smStep hd hu st).1.currentStatus = true) := by
  unfold smStep
  split_ifs <;> simp_all

theorem smStep_not_fail_of_good_nonempty (hd hu : Int) (st : AgentState)
    (hgd : st.goodIPv4 ≠ []) :
    (smStep hd hu st).2 ≠ some ActionKind.Fail ∧
      (st.currentStatus = true → (smStep hd hu st).1.currentStatus = true) := by
  have hlen : 0 < st.goodIPv4.length := List.length_pos.mpr hgd
  unfold smStep
  split_ifs <;> simp_all

theorem smStep_stable (hd hu : Int) (st : AgentState)
    (h : (st.currentStatus = true ∧ st.goodIPv4 ≠ []) ∨
         (st.currentStatus = false ∧ st.goodIPv4 = [])) :
    smStep hd hu st = (st, none) := by
  unfold smStep
  rcases h with ⟨hc, hg⟩ | ⟨hc, hg⟩
  · rw [if_pos (List.length_pos.mpr hg), if_neg (by simp [hc])]
  · rw [if_neg (by simp [hg]), if_neg (by simp [hc])]

/-! ## Round characterization lemmas -/

theorem onTimeout_valid_def {env : Env} {s : Snapshot} (probe : String → Bool)
    (oc : ApplyOutcome) (st : AgentState) (t0 t1 : ℚ)
    (hv : checkVars env s = true) :
    onTimeout env s probe oc st t0 t1 =
      { state := (smStep (holddownLocal s) (holdupLocal s)
          (aggregate probe st (hostsOf s))).1
        status := if (smStep (holddownLocal s) (holdupLocal s)
            (aggregate probe st (hostsOf s))).1.currentStatus
          then Health.GOOD else Health.FAIL
        action := (smStep (holddownLocal s) (holdupLocal s)
          (aggregate probe st (hostsOf s))).2
        dispatch := ((smStep (holddownLocal s) (holdupLocal s)
            (aggregate probe st (hostsOf s))).2).map
          (fun a => changeConfig oc (actionFileFor env s a))
        wake := nextWake (checkIntervalLocal s) t0 t1 } := by
  unfold onTimeout
  rw [if_pos hv]

theorem onTimeout_invalid_def {env : Env} {s : Snapshot} (probe : String → Bool)
    (oc : ApplyOutcome) (st : AgentState) (t0 t1 : ℚ)
    (hv : checkVars env s = false) :
    onTimeout env s probe oc st t0 t1 =
      { state := st
        status := Health.INACTIVE
        action := none
        dispatch := none
        wake := nextWake (checkIntervalLocal s) t0 t1 } := by
  unfold onTimeout
  rw [if_neg (by simp [hv])]

theorem onTimeout_wake (env : Env) (s : Snapshot) (probe : String → Bool)
    (oc : ApplyOutcome) (st : AgentState) (t0 t1 : ℚ) :
    (onTimeout env s probe oc st t0 t1).wake =
      nextWake (checkIntervalLocal s) t0 t1 := by
  unfold onTimeout
  split <;> rfl

/-! ## Concrete fixtures for witnesses and counterexamples -/

/-- Fixture: a failure action file. -/
def failFile : ActionFile := ⟨["router bgp 65001\n", "neighbor 10.1.1.1 shutdown\n"]⟩

/-- Fixture: a recovery action file. -/
def recoverFile : ActionFile := ⟨["router bgp 65001\n", "no neighbor 10.1.1.1 shutdown\n"]⟩

/-- Fixture: an environment where both action files exist and are nonempty,
every address parses, and interface and VRF lookups succeed. -/
def envW : Env :=
  { files := fun p =>
      if p = "/mnt/flash/failed.conf" then some failFile
      else if p = "/mnt/flash/recover.conf" then some recoverFile
      else none
    validIPv4 := fun _ => true
    checkInterface := fun _ => true
    vrfExists := fun _ => true }

/-- Fixture: the base snapshot of the worked examples: two endpoints,
holdup = holddown = 2, check interval 5, ping timeout 2. -/
def snapBase : Snapshot :=
  { ipv4 := some "10.1.1.1,10.1.2.1"
    confFail := some "/mnt/flash/failed.conf"
    confRecover := some "/mnt/flash/recover.conf"
    pingTimeout := some 2
    holdup := some 2
    holddown := some 2
    checkInterval := some 5
    source := none
    vrf := none }

/-- Fixture: snapBase with holdup 5. -/
def snapHold5 : Snapshot := { snapBase with holdup := some 5 }

/-- Fixture: snapBase with holdup 0. -/
def snapZero : Snapshot := { snapBase with holdup := some 0 }

/-- Fixture: snapBase with holdup 1. -/
def snapLow : Snapshot := { snapBase with holdup := some 1 }

/-- Fixture: snapBase with holddown 1. -/
def snapDown1 : Snapshot := { snapBase with holddown := some 1 }

/-- Fixture: snapBase with a negative ping timeout. -/
def snapNeg : Snapshot := { snapBase with pingTimeout := some (-1) }

/-- Fixture: snapBase with ping timeout 4000. -/
def snapHuge : Snapshot := { snapBase with pingTimeout := some 4000 }

/-- Fixture: snapBase configured with only the first endpoint. -/
def snapA : Snapshot := { snapBase with ipv4 := some "10.1.1.1" }

/-- Fixture: snapBase configured with only the second endpoint. -/
def snapB : Snapshot := { snapBase with ipv4 := some "10.1.2.1" }

/-- Fixture: the startup state: good, counter 0, both lists empty. -/
def stStart : AgentState :=
  { currentStatus := true, iteration := 0, deadIPv4 := [], goodIPv4 := [] }

/-- Fixture: every probe fails. -/
def probeNone : String → Bool := fun _ => false

/-- Fixture: every probe succeeds. -/
def probeAll : String → Bool := fun _ => true

/-- Fixture: only the first endpoint answers. -/
def probeFirst : String → Bool := fun h => h == "10.1.1.1"

theorem stStart_wf : SetsWF stStart :=
  ⟨List.nodup_nil, List.nodup_nil, fun _ ha => nomatch ha⟩

/-! ## Claim C4 -/

/-- C4: in every round, the failure action is dispatched exactly when the
round is a Good→Fail edge (old state good, new state failed) and the
recovery action exactly when the round is a Fail→Good edge; no action is
dispatched while a state merely persists, and a round carries at most one
action (the action slot is a single Option). -/
theorem pingcheck_c4 (env : Env) (s : Snapshot) (probe : String → Bool)
    (oc : ApplyOutcome) (st : AgentState) (t0 t1 : ℚ) :
    ((onTimeout env s probe oc st t0 t1).action = some ActionKind.Fail ↔
      st.currentStatus = true ∧
        (onTimeout env s probe oc st t0 t1).state.currentStatus = false) ∧
    ((onTimeout env s probe oc st t0 t1).action = some ActionKind.Recover ↔
      st.currentStatus = false ∧
        (onTimeout env s probe oc st t0 t1).state.currentStatus = true) := by
  cases hv : checkVars env s with
  | false =>
    rw [onTimeout_invalid_def probe oc st t0 t1 hv]
    cases hcs : st.currentStatus <;> simp [hcs]
  | true =>
    rw [onTimeout_valid_def probe oc st t0 t1 hv]
    have h := smStep_edge_iff (holddownLocal s) (holdupLocal s)
      (aggregate probe st (hostsOf s))
    rw [aggregate_currentStatus] at h
    exact h

/-! ## Claim C6 -/

/-- C6: for every round, with elapsed time t1 - t0 between the round's start
stamp and the scheduling point: when elapsed is at least the check interval
the next wake time is now (zero wait, also at exact equality, where the
source's strict comparison takes the other branch but adds a zero
remainder); otherwise the wake time is now plus the remaining part of the
interval; the computed wait is never negative. -/
theorem pingcheck_c6 (env : Env) (s : Snapshot) (probe : String → Bool)
    (oc : ApplyOutcome) (st : AgentState) (t0 t1 : ℚ) :
    (((checkIntervalLocal s : ℚ) ≤ t1 - t0 →
      (onTimeout env s probe oc st t0 t1).wake = t1) ∧
     (t1 - t0 < (checkIntervalLocal s : ℚ) →
      (onTimeout env s probe oc st t0 t1).wake =
        t1 + ((checkIntervalLocal s : ℚ) - (t1 - t0)))) ∧
    0 ≤ (onTimeout env s probe oc st t0 t1).wake - t1 := by
  rw [onTimeout_wake]
  unfold nextWake
  split
  · next hgt =>
    refine ⟨⟨fun _ => rfl, fun hlt => absurd hgt (not_lt.mpr hlt.le)⟩, by simp⟩
  · next hle =>
    have hle' : t1 - t0 ≤ (checkIntervalLocal s : ℚ) := not_lt.mp hle
    refine ⟨⟨?_, fun _ => rfl⟩, by linarith⟩
    intro hge
    have heq : (checkIntervalLocal s : ℚ) = t1 - t0 := le_antisymm hge hle'
    rw [heq]
    ring

/-- C6 witness: with check interval 5, a round that took 10 reschedules at
once (wake = now), and a round that took 2 wakes 3 later. -/
theorem pingcheck_c6_witness :
    (onTimeout envW snapBase probeNone ApplyOutcome.success stStart 0 10).wake = 10 ∧
    (onTimeout envW snapBase probeNone ApplyOutcome.success stStart 0 2).wake =
      2 + ((checkIntervalLocal snapBase : ℚ) - (2 - 0)) := by
  constructor
  · exact (pingcheck_c6 envW snapBase probeNone ApplyOutcome.success stStart 0 10).1.1
      (by show ((5 : Int) : ℚ) ≤ 10 - 0; norm_num)
  · exact (pingcheck_c6 envW snapBase probeNone ApplyOutcome.success stStart 0 2).1.2
      (by show (2 : ℚ) - 0 < ((5 : Int) : ℚ); norm_num)

/-! ## The all-down round: shared characterization -/

/-- A valid round from a good state whose probe loop ends with GOODIPV4
empty: when HOLDUP-local is at most the current ITERATION the round
transitions to failed, zeroes the counter and fires the failure action;
otherwise it just increments the counter. -/
theorem allDown_round (env : Env) (s : Snapshot) (probe : String → Bool)
    (oc : ApplyOutcome) (st : AgentState) (t0 t1 : ℚ)
    (hv : checkVars env s = true)
    (hcs : st.currentStatus = true)
    (hag : (aggregate probe st (hostsOf s)).goodIPv4 = []) :
    (holdupLocal s ≤ (st.iteration : Int) →
      (onTimeout env s probe oc st t0 t1).action = some ActionKind.Fail ∧
      (onTimeout env s probe oc st t0 t1).state.currentStatus = false ∧
      (onTimeout env s probe oc st t0 t1).state.iteration = 0 ∧
      (onTimeout env s probe oc st t0 t1).state.goodIPv4 = [] ∧
      (onTimeout env s probe oc st t0 t1).status = Health.FAIL) ∧
    ((st.iteration : Int) < holdupLocal s →
      (onTimeout env s probe oc st t0 t1).action = none ∧
      (onTimeout env s probe oc st t0 t1).state.currentStatus = true ∧
      (onTimeout env s probe oc st t0 t1).state.iteration = st.iteration + 1 ∧
      (onTimeout env s probe oc st t0 t1).state.goodIPv4 = []) := by
  rw [onTimeout_valid_def probe oc st t0 t1 hv]
  have hacs : (aggregate probe st (hostsOf s)).currentStatus = true := by
    rw [aggregate_currentStatus]; exact hcs
  have hait : (aggregate probe st (hostsOf s)).iteration = st.iteration :=
    aggregate_iteration probe (hostsOf s) st
  constructor
  · intro hth
    unfold smStep
    rw [if_neg (by simp [hag]), if_pos hacs, if_pos (by rw [hait]; exact hth)]
    exact ⟨rfl, rfl, rfl, hag, rfl⟩
  · intro hth
    unfold smStep
    rw [if_neg (by simp [hag]), if_pos hacs,
      if_neg (by rw [hait]; exact not_le.mpr hth)]
    refine ⟨rfl, hacs, ?_, hag⟩
    show (aggregate probe st (hostsOf s)).iteration + 1 = st.iteration + 1
    rw [hait]

/-! ## Claim C1 (corrected) -/

/-- C1 counterexample: with holdup = 2 and an all-down sequence from the
good startup state, round 2 does not fire the failure action and the state
is still good with counter 2 after two rounds — the claim's H-th round
transition (round 2) does not happen. -/
theorem pingcheck_c1_counterexample :
    (onTimeout envW snapBase probeNone ApplyOutcome.success
        (stateAfter envW snapBase probeNone stStart 1) 0 0).action = none ∧
    (stateAfter envW snapBase probeNone stStart 2).currentStatus = true ∧
    (stateAfter envW snapBase probeNone stStart 2).iteration = 2 := by
  refine ⟨?_, ?_, ?_⟩ <;> decide

/-- C1 (amended): for every run starting good with counter 0 and empty
GOODIPV4, constant holdup threshold H read from a snapshot that is valid
every round, and every probe failing: rounds 1..H only increment the
counter (the pre-round counter is compared with the threshold before being
incremented), and the transition to Fail with its action fires on round
H+1; with threshold 0 this is the very first all-down round. -/
theorem pingcheck_c1 (env : Env) (s : Snapshot) (probe : String → Bool)
    (st0 : AgentState) (H : Nat)
    (hv : checkVars env s = true)
    (hH : holdupLocal s = (H : Int))
    (hp : ∀ h ∈ hostsOf s, probe h = false)
    (hcs : st0.currentStatus = true) (hit : st0.iteration = 0)
    (hg : st0.goodIPv4 = []) :
    (∀ k, k ≤ H →
      (stateAfter env s probe st0 k).currentStatus = true ∧
      (stateAfter env s probe st0 k).iteration = k ∧
      (stateAfter env s probe st0 k).goodIPv4 = []) ∧
    (∀ k, k < H →
      (onTimeout env s probe ApplyOutcome.success
        (stateAfter env s probe st0 k) 0 0).action = none) ∧
    (onTimeout env s probe ApplyOutcome.success
      (stateAfter env s probe st0 H) 0 0).action = some ActionKind.Fail ∧
    (stateAfter env s probe st0 (H + 1)).currentStatus = false ∧
    (stateAfter env s probe st0 (H + 1)).iteration = 0 := by
  have key : ∀ k, k ≤ H →
      (stateAfter env s probe st0 k).currentStatus = true ∧
      (stateAfter env s probe st0 k).iteration = k ∧
      (stateAfter env s probe st0 k).goodIPv4 = [] := by
    intro k
    induction k with
    | zero => exact fun _ => ⟨hcs, hit, hg⟩
    | succ n ih =>
      intro hle
      have hn := ih (Nat.le_of_succ_le hle)
      have hag := aggregate_goodIPv4_nil probe (hostsOf s)
        (stateAfter env s probe st0 n) hn.2.2 hp
      have hlt : ((stateAfter env s probe st0 n).iteration : Int) < holdupLocal s := by
        rw [hn.2.1, hH]
        exact_mod_cast Nat.lt_of_succ_le hle
      have hr := (allDown_round env s probe ApplyOutcome.success
        (stateAfter env s probe st0 n) 0 0 hv hn.1 hag).2 hlt
      exact ⟨hr.2.1, by rw [show stateAfter env s probe st0 (n + 1) =
          (onTimeout env s probe ApplyOutcome.success
            (stateAfter env s probe st0 n) 0 0).state from rfl,
          hr.2.2.1, hn.2.1], hr.2.2.2⟩
  have hlast := key H (Nat.le_refl H)
  have hagH := aggregate_goodIPv4_nil probe (hostsOf s)
    (stateAfter env s probe st0 H) hlast.2.2 hp
  have hfire := (allDown_round env s probe ApplyOutcome.success
    (stateAfter env s probe st0 H) 0 0 hv hlast.1 hagH).1
    (by rw [hlast.2.1, hH])
  refine ⟨key, ?_, hfire.1, hfire.2.1, hfire.2.2.1⟩
  intro k hk
  have hkk := key k (Nat.le_of_lt hk)
  have hagk := aggregate_goodIPv4_nil probe (hostsOf s)
    (stateAfter env s probe st0 k) hkk.2.2 hp
  exact ((allDown_round env s probe ApplyOutcome.success
    (stateAfter env s probe st0 k) 0 0 hv hkk.1 hagk).2
    (by rw [hkk.2.1, hH]; exact_mod_cast hk)).1

/-- C1 witness: with holdup H = 2 the amended claim instantiates to: the
failure action fires on round 3 of the all-down sequence and the state
after three rounds is failed. -/
theorem pingcheck_c1_witness :
    (onTimeout envW snapBase probeNone ApplyOutcome.success
      (stateAfter envW snapBase probeNone stStart 2) 0 0).action =
        some ActionKind.Fail ∧
    (stateAfter envW snapBase probeNone stStart 3).currentStatus = false := by
  have h := pingcheck_c1 envW snapBase probeNone stStart 2 (by decide) (by decide)
    (by decide) (by decide) (by decide) (by decide)
  exact ⟨h.2.2.1, h.2.2.2.1⟩

/-! ## Claim C7 -/

/-- C7: the holdup and holddown thresholds a round compares against are the
ones read from that round's snapshot, and both comparisons are
threshold ≤ streak; so whenever the accumulated counter already meets or
exceeds the threshold read this round, the transition fires on a valid
round with the sustaining condition: from the good state with every
configured endpoint unreachable the failure transition fires (action Fail,
state failed, counter 0, FAIL published), and from the failed state with
some configured endpoint reachable the recovery transition fires (action
Recover, state good, counter 0, GOOD published). -/
theorem pingcheck_c7 (env : Env) (s : Snapshot) (probe : String → Bool)
    (oc : ApplyOutcome) (st : AgentState) (t0 t1 : ℚ)
    (hv : checkVars env s = true) (hwf : SetsWF st) :
    (st.currentStatus = true →
      (∀ a ∈ st.goodIPv4, a ∈ hostsOf s) →
      (∀ h ∈ hostsOf s, probe h = false) →
      holdupLocal s ≤ (st.iteration : Int) →
      (onTimeout env s probe oc st t0 t1).action = some ActionKind.Fail ∧
      (onTimeout env s probe oc st t0 t1).state.currentStatus = false ∧
      (onTimeout env s probe oc st t0 t1).state.iteration = 0 ∧
      (onTimeout env s probe oc st t0 t1).status = Health.FAIL) ∧
    (st.currentStatus = false →
      (∃ h, h ∈ hostsOf s ∧ probe h = true) →
      holddownLocal s ≤ (st.iteration : Int) →
      (onTimeout env s probe oc st t0 t1).action = some ActionKind.Recover ∧
      (onTimeout env s probe oc st t0 t1).state.currentStatus = true ∧
      (onTimeout env s probe oc st t0 t1).state.iteration = 0 ∧
      (onTimeout env s probe oc st t0 t1).status = Health.GOOD) := by
  constructor
  · intro hcs hsub hp hth
    have hag := aggregate_goodIPv4_eq_nil probe (hostsOf s) st hwf hsub hp
    have h := (allDown_round env s probe oc st t0 t1 hv hcs hag).1 hth
    exact ⟨h.1, h.2.1, h.2.2.1, h.2.2.2.2⟩
  · intro hcs hup hth
    obtain ⟨h0, hm, hp⟩ := hup
    rw [onTimeout_valid_def probe oc st t0 t1 hv]
    have hmem : h0 ∈ (aggregate probe st (hostsOf s)).goodIPv4 :=
      ((aggregate_mem_of_mem_hosts probe st hwf hm).1 hp).1
    have hlen : 0 < (aggregate probe st (hostsOf s)).goodIPv4.length :=
      List.length_pos.mpr (List.ne_nil_of_mem hmem)
    have hacs : (aggregate probe st (hostsOf s)).currentStatus = false := by
      rw [aggregate_currentStatus]; exact hcs
    have hait : (aggregate probe st (hostsOf s)).iteration = st.iteration :=
      aggregate_iteration probe (hostsOf s) st
    unfold smStep
    rw [if_pos hlen, if_pos hacs, if_pos (by rw [hait]; exact hth)]
    exact ⟨rfl, rfl, rfl, rfl⟩

/-- C7 witness: with the holdup threshold lowered to 1 by this round's
snapshot and an already-accumulated counter of 1, the next valid all-down
round fires the failure transition; symmetrically, from the failed state
with holddown lowered to 1, counter 1 and the first endpoint answering, the
round fires the recovery transition. -/
theorem pingcheck_c7_witness :
    ((onTimeout envW snapLow probeNone ApplyOutcome.success
        { currentStatus := true, iteration := 1,
          deadIPv4 := ["10.1.1.1", "10.1.2.1"], goodIPv4 := [] } 0 0).action =
        some ActionKind.Fail ∧
      (onTimeout envW snapLow probeNone ApplyOutcome.success
        { currentStatus := true, iteration := 1,
          deadIPv4 := ["10.1.1.1", "10.1.2.1"], goodIPv4 := [] } 0 0).status =
        Health.FAIL) ∧
    ((onTimeout envW snapDown1 probeFirst ApplyOutcome.success
        { currentStatus := false, iteration := 1,
          deadIPv4 := ["10.1.1.1", "10.1.2.1"], goodIPv4 := [] } 0 0).action =
        some ActionKind.Recover ∧
      (onTimeout envW snapDown1 probeFirst ApplyOutcome.success
        { currentStatus := false, iteration := 1,
          deadIPv4 := ["10.1.1.1", "10.1.2.1"], goodIPv4 := [] } 0 0).status =
        Health.GOOD) := by
  constructor
  · have h := (pingcheck_c7 envW snapLow probeNone ApplyOutcome.success
      { currentStatus := true, iteration := 1,
        deadIPv4 := ["10.1.1.1", "10.1.2.1"], goodIPv4 := [] } 0 0
      (by decide) ⟨by decide, by decide, by decide⟩).1
      (by decide) (by decide) (by decide) (by decide)
    exact ⟨h.1, h.2.2.2⟩
  · have h := (pingcheck_c7 envW snapDown1 probeFirst ApplyOutcome.success
      { currentStatus := false, iteration := 1,
        deadIPv4 := ["10.1.1.1", "10.1.2.1"], goodIPv4 := [] } 0 0
      (by decide) ⟨by decide, by decide, by decide⟩).2
      (by decide) ⟨"10.1.1.1", by decide, by decide⟩ (by decide)
    exact ⟨h.1, h.2.2.2⟩

/-! ## Claim C3 (corrected) -/

/-- C3 counterexample: holdup 5, one all-down round from the good startup
state leaves counter 1; the next round has the first endpoint reachable
again (the down-streak's sustaining condition is broken before threshold),
yet the counter stays 1 — it is not reset to 0 as the claim states. -/
theorem pingcheck_c3_counterexample :
    (stateAfter envW snapHold5 probeNone stStart 1).iteration = 1 ∧
    (onTimeout envW snapHold5 probeFirst ApplyOutcome.success
      (stateAfter envW snapHold5 probeNone stStart 1) 0 0).state.goodIPv4 ≠ [] ∧
    (onTimeout envW snapHold5 probeFirst ApplyOutcome.success
      (stateAfter envW snapHold5 probeNone stStart 1) 0 0).state.iteration = 1 := by
  refine ⟨?_, ?_, ?_⟩ <;> decide

/-- C3 (amended): in a valid round where the sustaining condition of the
current pursuit is broken (good state with some endpoint reachable again,
or failed state with every endpoint unreachable again), the streak counter
is NOT reset: it keeps its value, the state does not change, and no action
fires — the counter is zeroed only on an actual transition, so a later
resumed streak carries the old count over. -/
theorem pingcheck_c3 (env : Env) (s : Snapshot) (probe : String → Bool)
    (oc : ApplyOutcome) (st : AgentState) (t0 t1 : ℚ)
    (hv : checkVars env s = true)
    (hbrk : (st.currentStatus = true ∧
              (aggregate probe st (hostsOf s)).goodIPv4 ≠ []) ∨
            (st.currentStatus = false ∧
              (aggregate probe st (hostsOf s)).goodIPv4 = [])) :
    (onTimeout env s probe oc st t0 t1).state.iteration = st.iteration ∧
    (onTimeout env s probe oc st t0 t1).state.currentStatus = st.currentStatus ∧
    (onTimeout env s probe oc st t0 t1).action = none := by
  rw [onTimeout_valid_def probe oc st t0 t1 hv]
  have hstable := smStep_stable (holddownLocal s) (holdupLocal s)
    (aggregate probe st (hostsOf s)) (by
      rcases hbrk with ⟨hc, hgd⟩ | ⟨hc, hgd⟩
      · exact Or.inl ⟨by rw [aggregate_currentStatus]; exact hc, hgd⟩
      · exact Or.inr ⟨by rw [aggregate_currentStatus]; exact hc, hgd⟩)

  rw [hstable]
  exact ⟨aggregate_iteration probe (hostsOf s) st,
    aggregate_currentStatus probe (hostsOf s) st, rfl⟩

/-- C3 witness: the amended claim at the counterexample's round: the good
state with a reachable endpoint again keeps its counter value 1. -/
theorem pingcheck_c3_witness :
    (onTimeout envW snapHold5 probeFirst ApplyOutcome.success
      (stateAfter envW snapHold5 probeNone stStart 1) 0 0).state.iteration =
      (stateAfter envW snapHold5 probeNone stStart 1).iteration ∧
    (onTimeout envW snapHold5 probeFirst ApplyOutcome.success
      (stateAfter envW snapHold5 probeNone stStart 1) 0 0).action = none := by
  have h := pingcheck_c3 envW snapHold5 probeFirst ApplyOutcome.success
    (stateAfter envW snapHold5 probeNone stStart 1) 0 0 (by decide)
    (Or.inl ⟨by decide, by decide⟩)
  exact ⟨h.1, h.2.2⟩

/-! ## Claim C2 (corrected) -/

/-- C2 counterexample: a valid round with snapshot of exactly one endpoint
10.1.2.1 run after an earlier round that tracked 10.1.1.1 as reachable
leaves 10.1.1.1 inside the reachable set even though it is not in this
round's configured endpoint list — the union of the two sets is not exactly
this round's endpoint set. -/
theorem pingcheck_c2_counterexample :
    "10.1.1.1" ∈ (onTimeout envW snapB probeNone ApplyOutcome.success
      (onTimeout envW snapA probeAll ApplyOutcome.success stStart 0 0).state
      0 0).state.goodIPv4 ∧
    "10.1.1.1" ∉ hostsOf snapB := by
  refine ⟨?_, ?_⟩ <;> decide

/-- C2 (amended): after every valid round starting from duplicate-free
disjoint sets, the two sets are still duplicate-free and disjoint, every
address in that round's configured endpoint list is in exactly one of them,
and every address outside the list keeps its previous membership; hence the
union equals exactly the configured endpoint set only under the proviso
that every previously tracked address is still configured (as when the
endpoint list has never changed since startup). -/
theorem pingcheck_c2 (env : Env) (s : Snapshot) (probe : String → Bool)
    (oc : ApplyOutcome) (st : AgentState) (t0 t1 : ℚ)
    (hv : checkVars env s = true) (hwf : SetsWF st) :
    SetsWF (onTimeout env s probe oc st t0 t1).state ∧
    (∀ h ∈ hostsOf s,
      (h ∈ (onTimeout env s probe oc st t0 t1).state.goodIPv4 ∧
        h ∉ (onTimeout env s probe oc st t0 t1).state.deadIPv4) ∨
      (h ∈ (onTimeout env s probe oc st t0 t1).state.deadIPv4 ∧
        h ∉ (onTimeout env s probe oc st t0 t1).state.goodIPv4)) ∧
    (∀ a, a ∉ hostsOf s →
      ((a ∈ (onTimeout env s probe oc st t0 t1).state.goodIPv4 ↔
        a ∈ st.goodIPv4) ∧
       (a ∈ (onTimeout env s probe oc st t0 t1).state.deadIPv4 ↔
        a ∈ st.deadIPv4))) ∧
    ((∀ a, a ∈ st.goodIPv4 ∨ a ∈ st.deadIPv4 → a ∈ hostsOf s) →
      ∀ a, ((a ∈ (onTimeout env s probe oc st t0 t1).state.goodIPv4 ∨
             a ∈ (onTimeout env s probe oc st t0 t1).state.deadIPv4) ↔
            a ∈ hostsOf s)) := by
  rw [onTimeout_valid_def probe oc st t0 t1 hv]
  have hsg := smStep_goodIPv4 (holddownLocal s) (holdupLocal s)
    (aggregate probe st (hostsOf s))
  have hsd := smStep_deadIPv4 (holddownLocal s) (holdupLocal s)
    (aggregate probe st (hostsOf s))
  have hAwf := aggregate_wf probe (hostsOf s) st hwf
  have hcover : ∀ h ∈ hostsOf s,
      (h ∈ (aggregate probe st (hostsOf s)).goodIPv4 ∧
        h ∉ (aggregate probe st (hostsOf s)).deadIPv4) ∨
      (h ∈ (aggregate probe st (hostsOf s)).deadIPv4 ∧
        h ∉ (aggregate probe st (hostsOf s)).goodIPv4) := by
    intro h hm
    cases hph : probe h with
    | true => exact Or.inl ((aggregate_mem_of_mem_hosts probe st hwf hm).1 hph)
    | false => exact Or.inr ((aggregate_mem_of_mem_hosts probe st hwf hm).2 hph)
  refine ⟨?_, ?_, ?_, ?_⟩
  · refine ⟨?_, ?_, ?_⟩
    · rw [hsg]; exact hAwf.1
    · rw [hsd]; exact hAwf.2.1
    · intro a ha
      rw [hsg] at ha
      rw [hsd]
      exact hAwf.2.2 a ha
  · intro h hm
    rw [hsg, hsd]
    exact hcover h hm
  · intro a ha
    rw [hsg, hsd, aggregate_mem_good_of_not_mem probe st ha,
      aggregate_mem_dead_of_not_mem probe st ha]
    exact ⟨Iff.rfl, Iff.rfl⟩
  · intro hsub a
    rw [hsg, hsd]
    constructor
    · intro hmem
      by_cases hm : a ∈ hostsOf s
      · exact hm
      · rcases hmem with hmg | hmd
        · rw [aggregate_mem_good_of_not_mem probe st hm] at hmg
          exact hsub a (Or.inl hmg)
        · rw [aggregate_mem_dead_of_not_mem probe st hm] at hmd
          exact hsub a (Or.inr hmd)
    · intro hm
      rcases hcover a hm with ⟨hg1, _⟩ | ⟨hd1, _⟩
      · exact Or.inl hg1
      · exact Or.inr hd1

/-- C2 witness: the amended claim at a concrete valid round from startup:
the answering endpoint 10.1.1.1 lies in exactly one of the two sets. -/
theorem pingcheck_c2_witness :
    ("10.1.1.1" ∈ (onTimeout envW snapBase probeFirst ApplyOutcome.success
        stStart 0 0).state.goodIPv4 ∧
      "10.1.1.1" ∉ (onTimeout envW snapBase probeFirst ApplyOutcome.success
        stStart 0 0).state.deadIPv4) ∨
    ("10.1.1.1" ∈ (onTimeout envW snapBase probeFirst ApplyOutcome.success
        stStart 0 0).state.deadIPv4 ∧
      "10.1.1.1" ∉ (onTimeout envW snapBase probeFirst ApplyOutcome.success
        stStart 0 0).state.goodIPv4) := by
  have h := pingcheck_c2 envW snapBase probeFirst ApplyOutcome.success
    stStart 0 0 (by decide) stStart_wf
  exact h.2.1 "10.1.1.1" (by decide)

/-! ## Claim C9 -/

/-- C9: in every valid round, addresses outside that round's configured
endpoint list keep their membership in both sets; consequently a stale
address left in the reachable set keeps it nonempty, so the all-down
condition stays false and the round can neither fire the failure action nor
leave the good state, even when every currently configured endpoint is
unreachable. -/
theorem pingcheck_c9 (env : Env) (s : Snapshot) (probe : String → Bool)
    (oc : ApplyOutcome) (st : AgentState) (t0 t1 : ℚ)
    (hv : checkVars env s = true) :
    (∀ b, b ∉ hostsOf s →
      ((b ∈ (onTimeout env s probe oc st t0 t1).state.goodIPv4 ↔
        b ∈ st.goodIPv4) ∧
       (b ∈ (onTimeout env s probe oc st t0 t1).state.deadIPv4 ↔
        b ∈ st.deadIPv4))) ∧
    (∀ a, a ∈ st.goodIPv4 → a ∉ hostsOf s →
      (onTimeout env s probe oc st t0 t1).state.goodIPv4 ≠ [] ∧
      (onTimeout env s probe oc st t0 t1).action ≠ some ActionKind.Fail ∧
      (st.currentStatus = true →
        (onTimeout env s probe oc st t0 t1).state.currentStatus = true)) := by
  rw [onTimeout_valid_def probe oc st t0 t1 hv]
  have hsg := smStep_goodIPv4 (holddownLocal s) (holdupLocal s)
    (aggregate probe st (hostsOf s))
  have hsd := smStep_deadIPv4 (holddownLocal s) (holdupLocal s)
    (aggregate probe st (hostsOf s))
  constructor
  · intro b hb
    rw [hsg, hsd, aggregate_mem_good_of_not_mem probe st hb,
      aggregate_mem_dead_of_not_mem probe st hb]
    exact ⟨Iff.rfl, Iff.rfl⟩
  · intro a hag ham
    have hmem : a ∈ (aggregate probe st (hostsOf s)).goodIPv4 :=
      (aggregate_mem_good_of_not_mem probe st ham).mpr hag
    have hne : (aggregate probe st (hostsOf s)).goodIPv4 ≠ [] :=
      List.ne_nil_of_mem hmem
    have hsm := smStep_not_fail_of_good_nonempty (holddownLocal s)
      (holdupLocal s) (aggregate probe st (hostsOf s)) hne
    refine ⟨by rw [hsg]; exact hne, hsm.1, ?_⟩
    intro hcs
    exact hsm.2 (by rw [aggregate_currentStatus]; exact hcs)

/-- C9 witness: a state holding stale reachable address 10.1.1.1 under a
snapshot configured with only 10.1.2.1, every probe failing and the counter
far past the threshold: the reachable set stays nonempty, no failure action
fires, and the state stays good. -/
theorem pingcheck_c9_witness :
    (onTimeout envW snapB probeNone ApplyOutcome.success
      { currentStatus := true, iteration := 5, deadIPv4 := [],
        goodIPv4 := ["10.1.1.1"] } 0 0).state.goodIPv4 ≠ [] ∧
    (onTimeout envW snapB probeNone ApplyOutcome.success
      { currentStatus := true, iteration := 5, deadIPv4 := [],
        goodIPv4 := ["10.1.1.1"] } 0 0).action ≠ some ActionKind.Fail := by
  have h := (pingcheck_c9 envW snapB probeNone ApplyOutcome.success
    { currentStatus := true, iteration := 5, deadIPv4 := [],
      goodIPv4 := ["10.1.1.1"] } 0 0 (by decide)).2 "10.1.1.1"
    (by decide) (by decide)
  exact ⟨h.1, h.2.1⟩

/-! ## Claim C5 (corrected) -/

/-- C5 counterexample: a snapshot with ping timeout -1 — outside [0, 3600] —
passes validation (the source only rejects values above 3600), so the round
is not INACTIVE: it probes, steps the state machine and publishes GOOD,
contradicting the claim's list of validation-failure causes. -/
theorem pingcheck_c5_counterexample :
    checkVars envW snapNeg = true ∧
    (onTimeout envW snapNeg probeAll ApplyOutcome.success stStart 0 0).status =
      Health.GOOD ∧
    (onTimeout envW snapNeg probeAll ApplyOutcome.success stStart 0 0).state ≠
      stStart := by
  refine ⟨?_, ?_, ?_⟩ <;> decide

/-- C5 (amended): every round whose snapshot fails validation (missing
IPv4/CONF_FAIL/CONF_RECOVER option, malformed endpoint address, missing or
empty action file, ping timeout GREATER THAN 3600 — not merely outside
[0, 3600] —, unresolved source interface, or unknown VRF) publishes
INACTIVE, dispatches nothing and leaves the whole state (health flag,
counter, both sets) untouched; and a ping timeout above 3600 does make
validation fail. -/
theorem pingcheck_c5 (env : Env) (s : Snapshot) (probe : String → Bool)
    (oc : ApplyOutcome) (st : AgentState) (t0 t1 : ℚ) :
    (checkVars env s = false →
      (onTimeout env s probe oc st t0 t1).state = st ∧
      (onTimeout env s probe oc st t0 t1).status = Health.INACTIVE ∧
      (onTimeout env s probe oc st t0 t1).action = none ∧
      (onTimeout env s probe oc st t0 t1).dispatch = none) ∧
    (∀ t : Int, s.pingTimeout = some t → 3600 < t → checkVars env s = false) := by
  constructor
  · intro hv
    rw [onTimeout_invalid_def probe oc st t0 t1 hv]
    exact ⟨rfl, rfl, rfl, rfl⟩
  · intro t ht h36
    have hbt : badTimeout s = true := by
      unfold badTimeout
      rw [ht]
      exact decide_eq_true h36
    unfold checkVars
    repeat' split
    all_goals simp_all

/-- C5 witness: ping timeout 4000 fails validation and the round leaves the
state untouched and publishes INACTIVE. -/
theorem pingcheck_c5_witness :
    (onTimeout envW snapHuge probeAll ApplyOutcome.success stStart 0 0).status =
      Health.INACTIVE ∧
    (onTimeout envW snapHuge probeAll ApplyOutcome.success stStart 0 0).state =
      stStart := by
  have h := pingcheck_c5 envW snapHuge probeAll ApplyOutcome.success stStart 0 0
  have hcv : checkVars envW snapHuge = false := h.2 4000 rfl (by norm_num)
  have h1 := h.1 hcv
  exact ⟨h1.2.1, h1.1⟩

/-! ## Claim C8 -/

/-- C8: the outcome of a round's config apply (success, reported failure, or
exception) changes nothing observable of the round except the logged
return value: state, published status, action and next wake time are the
same as with a successful apply, and whenever a dispatch happens the eAPI
call is made exactly once (no retry). -/
theorem pingcheck_c8 (env : Env) (s : Snapshot) (probe : String → Bool)
    (st : AgentState) (t0 t1 : ℚ) (oc : ApplyOutcome) :
    ((onTimeout env s probe oc st t0 t1).state =
      (onTimeout env s probe ApplyOutcome.success st t0 t1).state ∧
     (onTimeout env s probe oc st t0 t1).status =
      (onTimeout env s probe ApplyOutcome.success st t0 t1).status ∧
     (onTimeout env s probe oc st t0 t1).action =
      (onTimeout env s probe ApplyOutcome.success st t0 t1).action ∧
     (onTimeout env s probe oc st t0 t1).wake =
      (onTimeout env s probe ApplyOutcome.success st t0 t1).wake) ∧
    (∀ d, (onTimeout env s probe oc st t0 t1).dispatch = some d →
      d.applyCalls = 1) := by
  cases hv : checkVars env s with
  | false =>
    rw [onTimeout_invalid_def probe oc st t0 t1 hv,
      onTimeout_invalid_def probe ApplyOutcome.success st t0 t1 hv]
    exact ⟨⟨rfl, rfl, rfl, rfl⟩, fun d hd => by cases hd⟩
  | true =>
    rw [onTimeout_valid_def probe oc st t0 t1 hv,
      onTimeout_valid_def probe ApplyOutcome.success st t0 t1 hv]
    refine ⟨⟨rfl, rfl, rfl, rfl⟩, ?_⟩
    intro d hd
    have hd' : ((smStep (holddownLocal s) (holdupLocal s)
        (aggregate probe st (hostsOf s))).2).map
        (fun a => changeConfig oc (actionFileFor env s a)) = some d := hd
    cases hx : (smStep (holddownLocal s) (holdupLocal s)
        (aggregate probe st (hostsOf s))).2 with
    | none => rw [hx] at hd'; cases hd'
    | some a =>
      rw [hx] at hd'
      have hda : changeConfig oc (actionFileFor env s a) = d :=
        Option.some_injective _ hd'
      rw [← hda]
      rfl

/-- C8 witness: holdup 0, all endpoints down from the good startup state:
with the apply raising an exception, the round still transitions to failed
exactly as the successful round does, and the dispatch called the eAPI
exactly once. -/
theorem pingcheck_c8_witness :
    (onTimeout envW snapZero probeNone ApplyOutcome.exception stStart 0 0).state.currentStatus
      = false ∧
    (changeConfig ApplyOutcome.exception failFile).applyCalls = 1 := by
  have h := pingcheck_c8 envW snapZero probeNone stStart 0 0 ApplyOutcome.exception
  constructor
  · rw [h.1.1]; decide
  · exact h.2 (changeConfig ApplyOutcome.exception failFile) (by decide)

/-! ## Claim C10 -/

theorem pyStrip_length_le (s : String) : (pyStrip s).length ≤ s.length := by
  show (((s.data.dropWhile isPySpace).reverse.dropWhile isPySpace).reverse).length ≤
    s.data.length
  rw [List.length_reverse]
  calc ((s.data.dropWhile isPySpace).reverse.dropWhile isPySpace).length
      ≤ (s.data.dropWhile isPySpace).reverse.length :=
        (List.dropWhile_sublist _).length_le
    _ = (s.data.dropWhile isPySpace).length := List.length_reverse _
    _ ≤ s.data.length := (List.dropWhile_sublist _).length_le

/-- C10: an action file whose lines, each stripped of surrounding
whitespace, are exactly the single line enable has nonzero size on disk
(so the emptiness guard of validation accepts it), and change_config on it
deletes the leading enable line and submits the empty command batch to the
eAPI in its single apply call. -/
theorem pingcheck_c10 (f : ActionFile) (oc : ApplyOutcome)
    (h : f.lines.map pyStrip = ["enable"]) :
    f.getsize ≠ 0 ∧
    (changeConfig oc f).submitted = [] ∧
    (changeConfig oc f).applyCalls = 1 := by
  refine ⟨?_, ?_, rfl⟩
  · obtain ⟨lines⟩ := f
    rcases lines with _ | ⟨a, _ | ⟨b, t⟩⟩
    · simp at h
    · have hstrip : pyStrip a = "enable" := by simpa using h
      have h6 : 6 ≤ a.length := by
        have hle := pyStrip_length_le a
        have he : ("enable" : String).length = 6 := by decide
        rw [hstrip, he] at hle
        exact hle
      show ([a].map String.length).sum ≠ 0
      simp only [List.map_cons, List.map_nil, List.sum_cons, List.sum_nil]
      omega
    · simp at h
  · show prepareCommands f = []
    unfold prepareCommands
    rw [h]
    rfl

/-- C10 witness: the file whose single raw line is enable plus newline. -/
theorem pingcheck_c10_witness :
    ActionFile.getsize ⟨["enable\n"]⟩ ≠ 0 ∧
    (changeConfig ApplyOutcome.success ⟨["enable\n"]⟩).submitted = [] ∧
    (changeConfig ApplyOutcome.success ⟨["enable\n"]⟩).applyCalls = 1 :=
  pingcheck_c10 ⟨["enable\n"]⟩ ApplyOutcome.success (by decide)

end PingCheck
